import Mathlib

/-!
Verification of the layer-walker core of the fanal repository
(src/walker/tar.go): path normalization, whiteout/opaque classification,
skip filtering, the fail-fast walk loop, and the per-entry content
accessor returned by fileWithTarOpener.

Paths are modelled as Lean `String`s; the Go standard-library path
helpers used by the walker (filepath.Clean, filepath.Split,
filepath.Join, filepath.Rel on Unix, strings.TrimLeft, strings.HasPrefix,
strings.TrimPrefix) are embedded below over `List Char`.
-/

/-- Split a character list on the slash separator, keeping empty pieces,
mirroring how Go path code treats a path as slash-separated elements
("a/b" gives ["a","b"], "/a" gives ["","a"], "" gives [""]). -/
def splitSlash : List Char → List (List Char)
  | [] => [[]]
  | c :: rest =>
    if c = '/' then [] :: splitSlash rest
    else
      match splitSlash rest with
      | [] => [[c]]
      | s :: ss => (c :: s) :: ss

/-- Join slash-separated elements back into one character list. -/
def joinSlash : List (List Char) → List Char
  | [] => []
  | [s] => s
  | s :: rest => s ++ '/' :: joinSlash rest

/-- One step of the lexical-cleaning loop of Go filepath.Clean: empty and
"." elements are dropped, ".." pops a previous real element (or is kept
when nothing can be popped and the path is not rooted), any other element
is pushed.  The accumulator holds the output elements in reverse order. -/
def stepSeg (rooted : Bool) (seg : List Char) (acc : List (List Char)) :
    List (List Char) :=
  if seg = [] ∨ seg = ['.'] then acc
  else if seg = ['.', '.'] then
    match acc with
    | [] => if rooted then [] else [['.', '.']]
    | t :: acc' => if t = ['.', '.'] then ['.', '.'] :: t :: acc' else acc'
  else seg :: acc

/-- Character-list body of Go filepath.Clean (Unix rules): shortest
lexically equivalent path, "." for the empty result of a relative path,
"/" kept for rooted paths. -/
def cleanChars (l : List Char) : List Char :=
  if l = [] then ['.']
  else
    let rooted : Bool := l.head? == some '/'
    let segs := splitSlash l
    let joined :=
      joinSlash ((segs.foldl (fun acc seg => stepSeg rooted seg acc) []).reverse)
    if rooted then '/' :: joined
    else if joined = [] then ['.'] else joined

/-- Go filepath.Clean on strings. -/
def goClean (s : String) : String := ⟨cleanChars s.data⟩

/-- Go strings.TrimLeft with cutset "/": drop every leading slash. -/
def trimLeftSlashChars : List Char → List Char
  | [] => []
  | c :: rest => if c = '/' then trimLeftSlashChars rest else c :: rest

/-- Go strings.TrimLeft with cutset "/" on strings. -/
def trimLeftSlash (s : String) : String := ⟨trimLeftSlashChars s.data⟩

/-- Go filepath.Split: split after the last slash; the directory part
keeps its trailing slash, and a path without a slash has directory "". -/
def goSplitChars (l : List Char) : List Char × List Char :=
  let f := (l.reverse.takeWhile (fun c => c ≠ '/')).reverse
  (l.take (l.length - f.length), f)

/-- Go filepath.Split on strings, as (directory, base name). -/
def goSplit (s : String) : String × String :=
  let p := goSplitChars s.data
  (⟨p.1⟩, ⟨p.2⟩)

/-- Character-list test that p is a leading run of s (Go strings.HasPrefix,
restricted to the ASCII markers the walker compares against). -/
def hasPreChars : List Char → List Char → Bool
  | [], _ => true
  | _ :: _, [] => false
  | p :: ps, c :: cs => if p = c then hasPreChars ps cs else false

/-- Go strings.HasPrefix on strings. -/
def goHasPre (p s : String) : Bool := hasPreChars p.data s.data

/-- Go strings.TrimPrefix: drop the leading occurrence of p when present. -/
def dropPre (p s : String) : String :=
  if goHasPre p s then ⟨s.data.drop p.data.length⟩ else s

/-- Go filepath.Join on two elements: join the non-empty elements with a
slash and clean the result; "" when both are empty. -/
def goJoin (a b : String) : String :=
  if a ≠ "" then goClean (a ++ "/" ++ b)
  else if b ≠ "" then goClean b
  else ""

/-- True when the string starts with a slash. -/
def headSlash (s : String) : Bool := s.data.head? == some '/'

/-- Strip the longest common leading run of equal elements from two
element lists, mirroring the element-matching loop of Go filepath.Rel. -/
def dropCommon :
    List (List Char) → List (List Char) → List (List Char) × List (List Char)
  | b :: bs, t :: ts => if b = t then dropCommon bs ts else (b :: bs, t :: ts)
  | bs, ts => (bs, ts)

/-- Go filepath.Rel on Unix (volume names are empty there): `none` is the
error return.  After cleaning both paths, equal paths give ".", mixed
rooted/relative paths fail, a base whose first unmatched element is ".."
fails, and otherwise the result climbs out of the unmatched base elements
with ".." steps and then descends into the unmatched target elements. -/
def goRel (basepath targpath : String) : Option String :=
  let base := goClean basepath
  let targ := goClean targpath
  if targ = base then some "." else
  let base1 := if base = "." then "" else base
  if headSlash base1 ≠ headSlash targ then none
  else
    let bs := if base1 = "" then [] else splitSlash base1.data
    let ts := splitSlash targ.data
    let p := dropCommon bs ts
    if p.1.head? = some ['.', '.'] then none
    else if joinSlash p.1 ≠ [] then
      let ups := joinSlash (List.replicate p.1.length ['.', '.'])
      if joinSlash p.2 ≠ [] then some ⟨ups ++ '/' :: joinSlash p.2⟩
      else some ⟨ups⟩
    else some ⟨joinSlash p.2⟩

/-- Reserved opaque-marker base name (constant opq in tar.go). -/
def opq : String := ".wh..wh..opq"

/-- Reserved whiteout name marker (constant wh in tar.go). -/
def wh : String := ".wh."

/-- Tar entry type flags used by the walker's switch: directory, regular
file, symbolic link, hard link, and a catch-all for every other flag. -/
inductive TypeFlag where
  | dir
  | reg
  | symlink
  | link
  | other
deriving DecidableEq

/-- One tar header as the walker reads it: raw name, type flag, size. -/
structure TarHeader where
  name : String
  typeflag : TypeFlag
  size : Int
deriving DecidableEq

/-- One event of the forward-only tar stream: a decoded header, or a
non-EOF decode error from reading the next header (io.EOF is the end of
the list). -/
inductive TarItem where
  | entry (hdr : TarHeader)
  | readFail (msg : String)
deriving DecidableEq

/-- Modelled from the spec: the walker value carries the skip policy as
two membership/pattern tests over configured path patterns (the functions
shouldSkipDir and shouldSkipFile live in the repository's walk.go, which
is outside src/; the spec treats them as external configuration). -/
structure Walker where
  shouldSkipDir : String → Bool
  shouldSkipFile : String → Bool

/-- Normalized path of a header, as computed at the top of the Walk loop:
filepath.Clean then strings.TrimLeft of leading slashes. -/
def tarPath (hdr : TarHeader) : String := trimLeftSlash (goClean hdr.name)

/-- Directory component of the normalized path (filepath.Split). -/
def tarDir (hdr : TarHeader) : String := (goSplit (tarPath hdr)).1

/-- Base-name component of the normalized path (filepath.Split). -/
def tarBase (hdr : TarHeader) : String := (goSplit (tarPath hdr)).2

/-- underSkippedDir from tar.go: walk the recorded skipped directories in
order; a failing filepath.Rel makes the whole function return false, a
relative path that does not start with "../" returns true, otherwise the
next recorded directory is tried. -/
def underSkippedDir (filePath : String) (skipDirs : List String) : Bool :=
  match skipDirs with
  | [] => false
  | skipDir :: rest =>
    match goRel skipDir filePath with
    | none => false
    | some rel =>
      if goHasPre "../" rel then underSkippedDir filePath rest
      else true

/-- Loop body of LayerTar.Walk over the remaining stream items.  The
callback is modelled as a pure function from the delivered path and
header to an optional error message; its invocations are instrumented in
the first component of the result (the delivery trace, in stream order).
The remaining components are the opqDirs and whFiles accumulators and the
error return, with the Go code's nil, nil result — both lists discarded —
on every error exit. -/
def walkAux (w : Walker) (cb : String → TarHeader → Option String) :
    List TarItem → List String → List String → List String → List String →
    List String × List String × List String × Option String
  | [], o, hw, _sk, dl => (dl, o, hw, none)
  | TarItem.readFail m :: _rest, _o, _hw, _sk, dl =>
    (dl, [], [], some ("failed to extract the archive: " ++ m))
  | TarItem.entry hdr :: rest, o, hw, sk, dl =>
    if tarBase hdr = opq then
      walkAux w cb rest (o ++ [tarDir hdr]) hw sk dl
    else if goHasPre wh (tarBase hdr) then
      walkAux w cb rest o (hw ++ [goJoin (tarDir hdr) (dropPre wh (tarBase hdr))]) sk dl
    else
      match hdr.typeflag with
      | TypeFlag.dir =>
        if w.shouldSkipDir (tarPath hdr) then
          walkAux w cb rest o hw (sk ++ [tarPath hdr]) dl
        else if underSkippedDir (tarPath hdr) sk then
          walkAux w cb rest o hw sk dl
        else
          match cb (tarPath hdr) hdr with
          | some m => (dl ++ [tarPath hdr], [], [], some ("failed to analyze file: " ++ m))
          | none => walkAux w cb rest o hw sk (dl ++ [tarPath hdr])
      | TypeFlag.symlink =>
        if w.shouldSkipFile (tarPath hdr) then
          walkAux w cb rest o hw sk dl
        else if underSkippedDir (tarPath hdr) sk then
          walkAux w cb rest o hw sk dl
        else
          match cb (tarPath hdr) hdr with
          | some m => (dl ++ [tarPath hdr], [], [], some ("failed to analyze file: " ++ m))
          | none => walkAux w cb rest o hw sk (dl ++ [tarPath hdr])
      | TypeFlag.link =>
        if w.shouldSkipFile (tarPath hdr) then
          walkAux w cb rest o hw sk dl
        else if underSkippedDir (tarPath hdr) sk then
          walkAux w cb rest o hw sk dl
        else
          match cb (tarPath hdr) hdr with
          | some m => (dl ++ [tarPath hdr], [], [], some ("failed to analyze file: " ++ m))
          | none => walkAux w cb rest o hw sk (dl ++ [tarPath hdr])
      | TypeFlag.reg =>
        if w.shouldSkipFile (tarPath hdr) then
          walkAux w cb rest o hw sk dl
        else if underSkippedDir (tarPath hdr) sk then
          walkAux w cb rest o hw sk dl
        else
          match cb (tarPath hdr) hdr with
          | some m => (dl ++ [tarPath hdr], [], [], some ("failed to analyze file: " ++ m))
          | none => walkAux w cb rest o hw sk (dl ++ [tarPath hdr])
      | TypeFlag.other =>
        walkAux w cb rest o hw sk dl

/-- LayerTar.Walk: run the loop on the whole stream from empty
accumulators and return (opqDirs, whFiles, error). -/
def Walk (w : Walker) (items : List TarItem)
    (cb : String → TarHeader → Option String) :
    List String × List String × Option String :=
  let r := walkAux w cb items [] [] [] []
  (r.2.1, r.2.2.1, r.2.2.2)

/-- Delivery trace of a Walk call: the normalized paths handed to the
callback, in invocation order. -/
def walkDelivered (w : Walker) (items : List TarItem)
    (cb : String → TarHeader → Option String) : List String :=
  (walkAux w cb items [] [] [] []).1

/-- Walker fixture with no skip configuration. -/
def w0 : Walker := { shouldSkipDir := fun _ => false, shouldSkipFile := fun _ => false }

/-- Callback fixture that always succeeds. -/
def cb0 : String → TarHeader → Option String := fun _ _ => none

/-- Modelled from the spec: the fixed materialization size threshold of
200 MiB (constant ThresholdSize of the walker package, declared outside
src/; the spec fixes it at 200 MiB). -/
def ThresholdSize : Int := 200 * 1048576

/-- Size view of the os.FileInfo the opener closure captures. -/
structure FileInfo where
  size : Int
deriving DecidableEq

/-- Failure injection for the file-system and stream operations the
opener body performs; a field holds the text of the underlying error when
that operation fails, and `none` when it succeeds. -/
structure FsEnv where
  tempDirFail : Option String
  tempFileFail : Option String
  copyFail : Option String
  readFail : Option String
deriving DecidableEq

/-- Shared state of one fileWithTarOpener closure: the sync.Once flag,
the in-memory buffer b, the content of the spooled temp file (`none` when
the file does not exist, e.g. after os.RemoveAll), the sticky err
variable set inside once.Do, and an instrumentation counter of how many
times the entry's forward-only stream content was read or copied. -/
structure OpenerState where
  onceDone : Bool
  buf : List UInt8
  tempFile : Option (List UInt8)
  errOnce : Option String
  streamReads : Nat
deriving DecidableEq

/-- Opener state at delivery time: nothing materialized, no error. -/
def initOpenerState : OpenerState := ⟨false, [], none, none, 0⟩

/-- Body of once.Do in fileWithTarOpener: for a large entry create the
temp dir and temp file and copy the stream into it, for a small entry
read the whole stream into the retained buffer; on any failure record the
wrapped error in the sticky err variable.  Copy and read attempts consume
the stream and bump the instrumentation counter. -/
def materialize (env : FsEnv) (fi : FileInfo) (content : List UInt8)
    (st : OpenerState) : OpenerState :=
  if ThresholdSize ≤ fi.size then
    match env.tempDirFail with
    | some m => { st with errOnce := some ("failed to create the temp dir: " ++ m) }
    | none =>
      match env.tempFileFail with
      | some m => { st with errOnce := some ("failed to create the temp file: " ++ m) }
      | none =>
        match env.copyFail with
        | some m =>
          { st with streamReads := st.streamReads + 1,
                    errOnce := some ("failed to copy: " ++ m) }
        | none =>
          { st with streamReads := st.streamReads + 1, tempFile := some content }
  else
    match env.readFail with
    | some m =>
      { st with streamReads := st.streamReads + 1,
                errOnce := some ("unable to read the file: " ++ m) }
    | none => { st with streamReads := st.streamReads + 1, buf := content }

/-- What reading the returned handle yields: an independent handle on the
spooled temp file, or a fresh reader over the shared in-memory buffer. -/
inductive Handle where
  | fileHandle (content : List UInt8)
  | memHandle (content : List UInt8)
deriving DecidableEq

deriving instance DecidableEq for Except

/-- Part of the opener body after once.Do: wrap and return the sticky
error when materialization failed, otherwise reopen the spooled temp file
(failing when it no longer exists) for a large entry, or wrap the shared
buffer in a fresh reader for a small entry. -/
def openerResult (fi : FileInfo) (st : OpenerState) : Except String Handle :=
  match st.errOnce with
  | some e => Except.error ("failed to once do: " ++ e)
  | none =>
    if ThresholdSize ≤ fi.size then
      match st.tempFile with
      | some c => Except.ok (Handle.fileHandle c)
      | none => Except.error "failed to open the temp file"
    else Except.ok (Handle.memHandle st.buf)

/-- One invocation of the function returned by fileWithTarOpener: run the
materialization under the once barrier on first entry, then produce the
result from the shared state. -/
def openerCall (env : FsEnv) (fi : FileInfo) (content : List UInt8)
    (st : OpenerState) : OpenerState × Except String Handle :=
  let st1 := if st.onceDone then st else { materialize env fi content st with onceDone := true }
  (st1, openerResult fi st1)

/-- Effect of calling the releaseFunc returned alongside a handle: for a
spooled entry os.RemoveAll deletes the temp dir and the file in it, for
an in-memory entry the retained buffer reference is dropped. -/
def releaseCall (fi : FileInfo) (st : OpenerState) : OpenerState :=
  if ThresholdSize ≤ fi.size then { st with tempFile := none }
  else { st with buf := [] }

/-- Iterate n opener invocations from a state, following the shared
closure state; under the once barrier any concurrent schedule of n
callers is equivalent to such a sequence. -/
def iterCalls (env : FsEnv) (fi : FileInfo) (content : List UInt8) :
    Nat → OpenerState → OpenerState
  | 0, st => st
  | n + 1, st => iterCalls env fi content n (openerCall env fi content st).1

/-- Environment fixture where every operation succeeds. -/
def env0 : FsEnv := ⟨none, none, none, none⟩

/-- FileInfo fixture at exactly the threshold (spooled branch). -/
def fiBig : FileInfo := ⟨209715200⟩

/-- FileInfo fixture far below the threshold (in-memory branch). -/
def fiSmall : FileInfo := ⟨3⟩

/-- Callback fixture that fails on the path "b" and succeeds elsewhere. -/
def cbB : String → TarHeader → Option String :=
  fun p _ => if p = "b" then some "boom" else none

-- Concrete validation of the opener model.
example :
    (openerCall env0 fiSmall [1, 2] initOpenerState).2
      = Except.ok (Handle.memHandle [1, 2]) := by decide
example :
    (openerCall env0 fiBig [1, 2] initOpenerState).2
      = Except.ok (Handle.fileHandle [1, 2]) := by decide
example :
    (openerCall env0 fiBig [1, 2]
        (releaseCall fiBig (openerCall env0 fiBig [1, 2] initOpenerState).1)).2
      = Except.error "failed to open the temp file" := by decide
example :
    (openerCall env0 fiSmall [1, 2]
        (releaseCall fiSmall (openerCall env0 fiSmall [1, 2] initOpenerState).1)).2
      = Except.ok (Handle.memHandle []) := by decide
example :
    (openerCall ⟨none, none, none, some "eof"⟩ fiSmall [1, 2] initOpenerState).2
      = Except.error "failed to once do: unable to read the file: eof" := by decide
example :
    (iterCalls env0 fiSmall [1, 2] 5 initOpenerState).streamReads = 1 := by decide
example :
    Walk w0 [TarItem.entry ⟨"etc/", TypeFlag.dir, 0⟩,
             TarItem.entry ⟨"etc/os-release", TypeFlag.reg, 50⟩,
             TarItem.entry ⟨"etc/.wh.hostname", TypeFlag.reg, 0⟩] cb0
      = ([], ["etc/hostname"], none) := by decide
example :
    walkDelivered w0 [TarItem.entry ⟨"etc/", TypeFlag.dir, 0⟩,
             TarItem.entry ⟨"etc/os-release", TypeFlag.reg, 50⟩,
             TarItem.entry ⟨"etc/.wh.hostname", TypeFlag.reg, 0⟩] cb0
      = ["etc", "etc/os-release"] := by decide
example :
    Walk w0 [TarItem.entry ⟨"var/cache/.wh..wh..opq", TypeFlag.reg, 0⟩,
             TarItem.entry ⟨"var/cache/pkg.db", TypeFlag.reg, 10⟩] cb0
      = (["var/cache/"], [], none) := by decide
example :
    walkDelivered w0 [TarItem.entry ⟨"var/cache/.wh..wh..opq", TypeFlag.reg, 0⟩,
             TarItem.entry ⟨"var/cache/pkg.db", TypeFlag.reg, 10⟩] cb0
      = ["var/cache/pkg.db"] := by decide
example :
    Walk { shouldSkipDir := fun p => p = "node_modules", shouldSkipFile := fun _ => false }
      [TarItem.entry ⟨"node_modules/", TypeFlag.dir, 0⟩,
       TarItem.entry ⟨"node_modules/pkg/index.js", TypeFlag.reg, 5⟩] cb0
      = ([], [], none) := by decide
example :
    walkDelivered { shouldSkipDir := fun p => p = "node_modules", shouldSkipFile := fun _ => false }
      [TarItem.entry ⟨"node_modules/", TypeFlag.dir, 0⟩,
       TarItem.entry ⟨"node_modules/pkg/index.js", TypeFlag.reg, 5⟩] cb0
      = [] := by decide
example :
    Walk w0 [TarItem.entry ⟨"a", TypeFlag.reg, 0⟩,
             TarItem.entry ⟨"etc/.wh.x", TypeFlag.reg, 0⟩,
             TarItem.entry ⟨"b", TypeFlag.reg, 0⟩]
        (fun p _ => if p = "b" then some "boom" else none)
      = ([], [], some "failed to analyze file: boom") := by decide
example : Walk w0 [TarItem.entry ⟨"etc/.wh.", TypeFlag.reg, 0⟩] cb0
      = ([], ["etc"], none) := by decide
example : Walk w0 [TarItem.entry ⟨".wh.", TypeFlag.reg, 0⟩] cb0
      = ([], [""], none) := by decide
example : underSkippedDir "b" ["../a", "b"] = false := by decide
example : underSkippedDir "b" ["b"] = true := by decide
example : goClean "a/b/../c" = "a/c" := by decide
example : goClean "" = "." := by decide
example : goClean "/.." = "/" := by decide
example : goClean "//a/" = "/a" := by decide
example : goClean "./a" = "a" := by decide
example : goClean "a/../../b" = "../b" := by decide
example : goClean "etc/.wh.hostname" = "etc/.wh.hostname" := by decide
example : trimLeftSlash "//etc/x" = "etc/x" := by decide
example : goSplit "etc/os-release" = ("etc/", "os-release") := by decide
example : goSplit "abc" = ("", "abc") := by decide
example : goJoin "etc/" "hostname" = "etc/hostname" := by decide
example : goJoin "etc/" "" = "etc" := by decide
example : goJoin "" "" = "" := by decide
example : goRel "a" "a/b" = some "b" := by decide
example : goRel "a/b" "a/c" = some "../c" := by decide
example : goRel "a" "a" = some "." := by decide
example : goRel "a" "ab" = some "../ab" := by decide
example : goRel ".." "a" = none := by decide
example : goRel "../a" "b" = none := by decide
example : goRel "/a" "b" = none := by decide
example : goRel "." "a" = some "a" := by decide
example : goRel "a/b/c" "a/d" = some "../../d" := by decide
example : goRel "/a" "/" = some ".." := by decide
example : goRel "/" "/a" = some "a" := by decide

/-- Every non-empty character list splits into at least one element. -/
theorem splitSlash_ne_nil : ∀ l : List Char, splitSlash l ≠ [] := by
  intro l
  cases l with
  | nil => simp [splitSlash]
  | cons c rest =>
    simp only [splitSlash]
    split
    · simp
    · split
      · simp
      · simp

/-- Appending a trailing slash appends one empty element to the split. -/
theorem splitSlash_append_slash :
    ∀ l : List Char, splitSlash (l ++ ['/']) = splitSlash l ++ [[]] := by
  intro l
  induction l with
  | nil => decide
  | cons c rest ih =>
    by_cases hc : c = '/'
    · subst hc
      simp [splitSlash, ih]
    · simp only [List.cons_append, splitSlash, if_neg hc, List.append_eq]
      rw [ih]
      cases hs : splitSlash rest with
      | nil => exact absurd hs (splitSlash_ne_nil rest)
      | cons s ss => simp

/-- The cleaning step ignores an empty path element. -/
theorem stepSeg_nil (rooted : Bool) (acc : List (List Char)) :
    stepSeg rooted [] acc = acc := by
  simp [stepSeg]

/-- Lexical cleaning ignores a trailing slash on a non-empty path. -/
theorem cleanChars_append_slash (l : List Char) (hl : l ≠ []) :
    cleanChars (l ++ ['/']) = cleanChars l := by
  have h1 : l ++ ['/'] ≠ [] := by simp
  have hr : (l ++ ['/']).head? = l.head? := by
    cases l with
    | nil => exact absurd rfl hl
    | cons c rest => simp
  simp only [cleanChars, if_neg h1, if_neg hl, hr, splitSlash_append_slash,
    List.foldl_append, List.foldl_cons, List.foldl_nil, stepSeg_nil]

/-- A string differing from "" has a non-empty character list. -/
theorem data_ne_nil (d : String) (hd : d ≠ "") : d.data ≠ [] := by
  intro h
  apply hd
  cases d with
  | mk data =>
    simp only at h
    subst h
    rfl

/-- Go filepath.Clean ignores a trailing slash on a non-empty path. -/
theorem goClean_append_slash (d : String) (hd : d ≠ "") :
    goClean (d ++ "/") = goClean d := by
  show (⟨cleanChars (d ++ "/").data⟩ : String) = ⟨cleanChars d.data⟩
  have hdata : (d ++ "/").data = d.data ++ ['/'] := by
    rw [String.data_append]
  rw [hdata, cleanChars_append_slash d.data (data_ne_nil d hd)]

/-- Joining a non-empty directory with the empty name cleans the
directory (Go filepath.Join drops the empty element and cleans). -/
theorem goJoin_empty_name (d : String) (hd : d ≠ "") :
    goJoin d "" = goClean d := by
  have : d ++ "/" ++ "" = d ++ "/" := by
    rw [String.append_empty]
  simp only [goJoin, if_pos hd, this]
  exact goClean_append_slash d hd

/-- Every error exit of the walk loop returns empty opqDirs and whFiles,
whatever had been accumulated. -/
theorem walkAux_error_discards (w : Walker) (cb : String → TarHeader → Option String) :
    ∀ (items : List TarItem) (o hw sk dl : List String),
      (walkAux w cb items o hw sk dl).2.2.2 ≠ none →
      (walkAux w cb items o hw sk dl).2.1 = []
        ∧ (walkAux w cb items o hw sk dl).2.2.1 = [] := by
  intro items
  induction items with
  | nil => intro o hw sk dl h; simp [walkAux] at h
  | cons it rest ih =>
    intro o hw sk dl
    cases it with
    | readFail m => intro _; exact ⟨rfl, rfl⟩
    | entry hdr =>
      simp only [walkAux]
      repeat' split
      all_goals first
        | exact fun _ => ih _ _ _ _
        | exact fun h => (ih _ _ _ _) h
        | exact fun _ => ⟨rfl, rfl⟩

/-- Claim C1: a tar entry whose normalized base name equals the reserved
opaque-marker name ".wh..wh..opq" makes Walk append the entry's directory
component to opqDirs and move to the next entry: whFiles, the recorded
skip directories and the delivery trace are unchanged, and the callback
is not invoked (the step equation holds for every walker and callback, so
no skip filtering is consulted).  The opaque name itself carries the
".wh." whiteout marker, so the second conjunct records that the opaque
test must run first for nothing to be appended to whFiles. -/
theorem claim1_opaque_marker_priority (w : Walker)
    (cb : String → TarHeader → Option String) (hdr : TarHeader)
    (rest : List TarItem) (o hw sk dl : List String)
    (hb : tarBase hdr = opq) :
    (walkAux w cb (TarItem.entry hdr :: rest) o hw sk dl
        = walkAux w cb rest (o ++ [tarDir hdr]) hw sk dl)
      ∧ goHasPre wh opq = true := by
  constructor
  · simp only [walkAux]
    rw [hb]
    simp
  · decide

/-- Witness for C1 at the entry "etc/.wh..wh..opq". -/
theorem claim1_witness :
    tarBase ⟨"etc/.wh..wh..opq", TypeFlag.reg, 0⟩ = opq
    ∧ tarDir ⟨"etc/.wh..wh..opq", TypeFlag.reg, 0⟩ = "etc/"
    ∧ walkAux w0 cb0 [TarItem.entry ⟨"etc/.wh..wh..opq", TypeFlag.reg, 0⟩] [] [] [] []
        = walkAux w0 cb0 [] ([] ++ [tarDir ⟨"etc/.wh..wh..opq", TypeFlag.reg, 0⟩]) [] [] [] :=
  ⟨by decide, by decide,
    (claim1_opaque_marker_priority w0 cb0 ⟨"etc/.wh..wh..opq", TypeFlag.reg, 0⟩
      [] [] [] [] [] (by decide)).1⟩

/-- Claim C2: a tar entry whose normalized base name carries the ".wh."
whiteout marker (and is not the opaque-marker name) makes Walk append
the directory component joined with the stripped name to whFiles and move
on: opqDirs, the recorded skip directories and the delivery trace are
unchanged and the callback is not invoked. -/
theorem claim2_whiteout_marker (w : Walker)
    (cb : String → TarHeader → Option String) (hdr : TarHeader)
    (rest : List TarItem) (o hw sk dl : List String)
    (h1 : tarBase hdr ≠ opq) (h2 : goHasPre wh (tarBase hdr) = true) :
    walkAux w cb (TarItem.entry hdr :: rest) o hw sk dl
      = walkAux w cb rest o
          (hw ++ [goJoin (tarDir hdr) (dropPre wh (tarBase hdr))]) sk dl := by
  simp [walkAux, h1, h2]

/-- Witness for C2 at the entry "etc/.wh.hostname", which contributes
"etc/hostname" to whFiles. -/
theorem claim2_witness :
    tarBase ⟨"etc/.wh.hostname", TypeFlag.reg, 0⟩ ≠ opq
    ∧ goHasPre wh (tarBase ⟨"etc/.wh.hostname", TypeFlag.reg, 0⟩) = true
    ∧ goJoin (tarDir ⟨"etc/.wh.hostname", TypeFlag.reg, 0⟩)
        (dropPre wh (tarBase ⟨"etc/.wh.hostname", TypeFlag.reg, 0⟩)) = "etc/hostname"
    ∧ Walk w0 [TarItem.entry ⟨"etc/.wh.hostname", TypeFlag.reg, 0⟩] cb0
        = ([], ["etc/hostname"], none)
    ∧ walkAux w0 cb0 [TarItem.entry ⟨"etc/.wh.hostname", TypeFlag.reg, 0⟩] [] [] [] []
        = walkAux w0 cb0 [] []
            ([] ++ [goJoin (tarDir ⟨"etc/.wh.hostname", TypeFlag.reg, 0⟩)
              (dropPre wh (tarBase ⟨"etc/.wh.hostname", TypeFlag.reg, 0⟩))]) [] [] :=
  ⟨by decide, by decide, by decide, by decide,
    claim2_whiteout_marker w0 cb0 ⟨"etc/.wh.hostname", TypeFlag.reg, 0⟩
      [] [] [] [] [] (by decide) (by decide)⟩

/-- Claim C3: an opaque marker in directory D does not suppress delivery
of a later deliverable entry of the same layer under D: with no
applicable skip configuration the two-entry stream still delivers the
second entry while D sits in opqDirs. -/
theorem claim3_opaque_no_suppress (w : Walker)
    (cb : String → TarHeader → Option String) (e1 e2 : TarHeader)
    (hb1 : tarBase e1 = opq) (hb2 : tarBase e2 ≠ opq)
    (hw2 : goHasPre wh (tarBase e2) = false) (ht2 : e2.typeflag = TypeFlag.reg)
    (hsk : w.shouldSkipFile (tarPath e2) = false)
    (hcb : cb (tarPath e2) e2 = none) :
    walkAux w cb [TarItem.entry e1, TarItem.entry e2] [] [] [] []
      = ([tarPath e2], [tarDir e1], [], none) := by
  simp [walkAux, hb1, hb2, hw2, ht2, hsk, hcb, underSkippedDir]

/-- Witness for C3 at Scenario B: ["var/cache/.wh..wh..opq",
"var/cache/pkg.db"] gives opqDirs ["var/cache/"] and still delivers
"var/cache/pkg.db". -/
theorem claim3_witness :
    tarPath ⟨"var/cache/pkg.db", TypeFlag.reg, 10⟩ = "var/cache/pkg.db"
    ∧ tarDir ⟨"var/cache/.wh..wh..opq", TypeFlag.reg, 0⟩ = "var/cache/"
    ∧ walkAux w0 cb0 [TarItem.entry ⟨"var/cache/.wh..wh..opq", TypeFlag.reg, 0⟩,
          TarItem.entry ⟨"var/cache/pkg.db", TypeFlag.reg, 10⟩] [] [] [] []
        = ([tarPath ⟨"var/cache/pkg.db", TypeFlag.reg, 10⟩],
            [tarDir ⟨"var/cache/.wh..wh..opq", TypeFlag.reg, 0⟩], [], none) :=
  ⟨by decide, by decide,
    claim3_opaque_no_suppress w0 cb0 ⟨"var/cache/.wh..wh..opq", TypeFlag.reg, 0⟩
      ⟨"var/cache/pkg.db", TypeFlag.reg, 10⟩ (by decide) (by decide) (by decide)
      rfl (by decide) (by decide)⟩

/-- Claim C4: Walk is fail-fast with no partial success.  A header-read
failure returns the wrapped archive error at once, ignoring the rest of
the stream and discarding both accumulated lists; a callback error on a
delivered entry returns the wrapped analyze error at once with both lists
discarded; and every error outcome of the loop carries empty opqDirs and
whFiles regardless of what had been accumulated. -/
theorem claim4_fail_fast (w : Walker) (cb : String → TarHeader → Option String)
    (o hw sk dl : List String) (m : String) (rest : List TarItem) :
    (walkAux w cb (TarItem.readFail m :: rest) o hw sk dl
        = (dl, [], [], some ("failed to extract the archive: " ++ m)))
    ∧ (∀ hdr : TarHeader, tarBase hdr ≠ opq →
        goHasPre wh (tarBase hdr) = false → hdr.typeflag = TypeFlag.reg →
        w.shouldSkipFile (tarPath hdr) = false →
        underSkippedDir (tarPath hdr) sk = false →
        cb (tarPath hdr) hdr = some m →
        walkAux w cb (TarItem.entry hdr :: rest) o hw sk dl
          = (dl ++ [tarPath hdr], [], [], some ("failed to analyze file: " ++ m)))
    ∧ (∀ (items : List TarItem) (e : String),
        (walkAux w cb items o hw sk dl).2.2.2 = some e →
        (walkAux w cb items o hw sk dl).2.1 = []
          ∧ (walkAux w cb items o hw sk dl).2.2.1 = []) := by
  refine ⟨rfl, ?_, ?_⟩
  · intro hdr hb hwp ht hsf hus hcb
    simp [walkAux, hb, hwp, ht, hsf, hus, hcb]
  · intro items e he
    exact walkAux_error_discards w cb items o hw sk dl (by rw [he]; exact Option.some_ne_none e)

/-- Witness for C4: the callback fixture fails on the entry "b". -/
theorem claim4_witness :
    cbB (tarPath ⟨"b", TypeFlag.reg, 0⟩) ⟨"b", TypeFlag.reg, 0⟩ = some "boom"
    ∧ walkAux w0 cbB [TarItem.entry ⟨"b", TypeFlag.reg, 0⟩] [] [] [] []
        = ([] ++ [tarPath ⟨"b", TypeFlag.reg, 0⟩], [], [],
            some ("failed to analyze file: " ++ "boom")) :=
  ⟨by decide,
    (claim4_fail_fast w0 cbB [] [] [] [] "boom" []).2.1 ⟨"b", TypeFlag.reg, 0⟩
      (by decide) (by decide) rfl (by decide) (by decide) (by decide)⟩

/-- Counterexample to C5 as stated: the recorded directory "b" has a
computable relative path "." to the path "b" that does not start with
"../", so the claim says the test returns true; but the earlier recorded
directory "../a" makes filepath.Rel fail, and the code then returns false
for the whole check instead of skipping only that directory. -/
theorem claim5_under_skipped_cex :
    underSkippedDir "b" ["../a", "b"] = false
    ∧ goRel "../a" "b" = none
    ∧ goRel "b" "b" = some "."
    ∧ goHasPre "../" "." = false
    ∧ ("b" : String) ∈ (["../a", "b"] : List String) := by
  decide

/-- Claim C5 as amended: when the relative-path computation succeeds for
every recorded directory, underSkippedDir returns true iff some recorded
directory D has a relative path from D to the path that does not begin
with "../" (so the path equal to D counts as under); but a recorded
directory whose relative-path computation fails makes the whole check
return false immediately (fail-open for the entire check, not just that
directory).  In Walk, a deliverable-typed entry for which the test
returns true against the recorded skipped directories is never delivered
to the callback. -/
theorem claim5_under_skipped_amended :
    (∀ (path : String) (ds : List String),
        (∀ dd ∈ ds, (goRel dd path).isSome = true) →
        (underSkippedDir path ds = true ↔
          ∃ dd ∈ ds, ∃ r, goRel dd path = some r ∧ goHasPre "../" r = false))
    ∧ (∀ (path dd : String) (ds : List String),
        goRel dd path = none → underSkippedDir path (dd :: ds) = false)
    ∧ (∀ (w : Walker) (cb : String → TarHeader → Option String)
        (hdr : TarHeader) (rest : List TarItem) (o hw sk dl : List String),
        tarBase hdr ≠ opq → goHasPre wh (tarBase hdr) = false →
        hdr.typeflag = TypeFlag.reg →
        w.shouldSkipFile (tarPath hdr) = false →
        underSkippedDir (tarPath hdr) sk = true →
        walkAux w cb (TarItem.entry hdr :: rest) o hw sk dl
          = walkAux w cb rest o hw sk dl) := by
  refine ⟨?_, ?_, ?_⟩
  · intro path ds
    induction ds with
    | nil =>
      intro _
      simp [underSkippedDir]
    | cons dd rest ih =>
      intro hall
      have hdd : (goRel dd path).isSome = true := hall dd (by simp)
      obtain ⟨r, hr⟩ := Option.isSome_iff_exists.mp hdd
      simp only [underSkippedDir, hr]
      by_cases hp : goHasPre "../" r = true
      · rw [if_pos hp, ih (fun x hx => hall x (List.mem_cons_of_mem dd hx))]
        constructor
        · rintro ⟨x, hx, s, hs, hps⟩
          exact ⟨x, List.mem_cons_of_mem dd hx, s, hs, hps⟩
        · rintro ⟨x, hx, s, hs, hps⟩
          rcases List.mem_cons.mp hx with hxd | hxr
          · subst hxd
            rw [hr] at hs
            injection hs with h'
            subst h'
            rw [hp] at hps
            cases hps
          · exact ⟨x, hxr, s, hs, hps⟩
      · have hp' : goHasPre "../" r = false := by
          revert hp
          cases goHasPre "../" r <;> simp
        rw [if_neg (by rw [hp']; simp)]
        constructor
        · intro _
          exact ⟨dd, by simp, r, hr, hp'⟩
        · intro _
          rfl
  · intro path dd ds h
    simp [underSkippedDir, h]
  · intro w cb hdr rest o hw sk dl hb hwp ht hsf hus
    simp [walkAux, hb, hwp, ht, hsf, hus]

/-- Witness for C5 as amended: with the single recorded directory "x" and
no failing relative-path computation, the path "x/y" is under "x". -/
theorem claim5_witness :
    (∀ dd ∈ (["x"] : List String), (goRel dd "x/y").isSome = true)
    ∧ (underSkippedDir "x/y" ["x"] = true ↔
        ∃ dd ∈ (["x"] : List String), ∃ r, goRel dd "x/y" = some r
          ∧ goHasPre "../" r = false) :=
  ⟨by decide, claim5_under_skipped_amended.1 "x/y" ["x"] (by decide)⟩

/-- Claim C10: a tar entry whose normalized base name is exactly ".wh."
strips to the empty name, and Walk appends the join of the directory
component with "" to whFiles without delivering the entry; for a
non-empty directory component that join is exactly the lexically cleaned
directory component, e.g. "etc/.wh." contributes "etc" with no trailing
separator. -/
theorem claim10_bare_whiteout (w : Walker)
    (cb : String → TarHeader → Option String) (hdr : TarHeader)
    (rest : List TarItem) (o hw sk dl : List String)
    (hb : tarBase hdr = ".wh.") :
    (walkAux w cb (TarItem.entry hdr :: rest) o hw sk dl
        = walkAux w cb rest o (hw ++ [goJoin (tarDir hdr) ""]) sk dl)
    ∧ (tarDir hdr ≠ "" → goJoin (tarDir hdr) "" = goClean (tarDir hdr)) := by
  have h1 : tarBase hdr ≠ opq := by rw [hb]; decide
  have h2 : goHasPre wh (tarBase hdr) = true := by rw [hb]; decide
  have h3 : dropPre wh (tarBase hdr) = "" := by rw [hb]; decide
  constructor
  · simp [walkAux, h1, h2, h3]
  · intro hd
    exact goJoin_empty_name (tarDir hdr) hd

/-- Witness for C10 at the entry "etc/.wh.", whose whiteout path is
"etc". -/
theorem claim10_witness :
    tarBase ⟨"etc/.wh.", TypeFlag.reg, 0⟩ = ".wh."
    ∧ tarDir ⟨"etc/.wh.", TypeFlag.reg, 0⟩ = "etc/"
    ∧ goJoin "etc/" "" = "etc"
    ∧ Walk w0 [TarItem.entry ⟨"etc/.wh.", TypeFlag.reg, 0⟩] cb0 = ([], ["etc"], none)
    ∧ goJoin (tarDir ⟨"etc/.wh.", TypeFlag.reg, 0⟩) ""
        = goClean (tarDir ⟨"etc/.wh.", TypeFlag.reg, 0⟩) :=
  ⟨by decide, by decide, by decide, by decide,
    (claim10_bare_whiteout w0 cb0 ⟨"etc/.wh.", TypeFlag.reg, 0⟩ [] [] [] [] []
      (by decide)).2 (by decide)⟩

/-- An opener invocation on an already-materialized state leaves the
state unchanged and reads the result off the shared state. -/
theorem openerCall_done (env : FsEnv) (fi : FileInfo) (content : List UInt8)
    (st : OpenerState) (h : st.onceDone = true) :
    openerCall env fi content st = (st, openerResult fi st) := by
  simp [openerCall, h]

/-- After any opener invocation the once barrier is consumed. -/
theorem openerCall_onceDone (env : FsEnv) (fi : FileInfo) (content : List UInt8)
    (st : OpenerState) : ((openerCall env fi content st).1).onceDone = true := by
  by_cases h : st.onceDone = true
  · simp [openerCall, h]
  · simp [openerCall, h]

/-- The result of an opener invocation is a function of the state after
the once barrier. -/
theorem openerCall_result (env : FsEnv) (fi : FileInfo) (content : List UInt8)
    (st : OpenerState) :
    (openerCall env fi content st).2
      = openerResult fi (openerCall env fi content st).1 := rfl

/-- Iterating opener invocations from a materialized state is the
identity on the state. -/
theorem iterCalls_done (env : FsEnv) (fi : FileInfo) (content : List UInt8) :
    ∀ (n : Nat) (st : OpenerState), st.onceDone = true →
      iterCalls env fi content n st = st := by
  intro n
  induction n with
  | zero => intro st _; rfl
  | succ k ih =>
    intro st h
    have h1 : (openerCall env fi content st).1 = st := by
      rw [openerCall_done env fi content st h]
    simp only [iterCalls, h1]
    exact ih st h

/-- The opener state stabilizes after the first invocation. -/
theorem iterCalls_stable (env : FsEnv) (fi : FileInfo) (content : List UInt8)
    (n : Nat) :
    iterCalls env fi content (n + 1) initOpenerState
      = (openerCall env fi content initOpenerState).1 := by
  simp only [iterCalls]
  exact iterCalls_done env fi content n _ (openerCall_onceDone env fi content initOpenerState)

/-- Every opener invocation returns what the first one returned. -/
theorem openerCall_iter_result (env : FsEnv) (fi : FileInfo) (content : List UInt8)
    (n : Nat) :
    (openerCall env fi content (iterCalls env fi content n initOpenerState)).2
      = (openerCall env fi content initOpenerState).2 := by
  cases n with
  | zero => rfl
  | succ k =>
    rw [iterCalls_stable,
      openerCall_done env fi content _ (openerCall_onceDone env fi content initOpenerState)]
    exact (openerCall_result env fi content initOpenerState).symm

/-- First opener invocation on a large entry when the file system
cooperates: the content is spooled to the temp file and an independent
handle on it is returned. -/
theorem openerCall_spool_first (env : FsEnv) (fi : FileInfo) (content : List UInt8)
    (h1 : env.tempDirFail = none) (h2 : env.tempFileFail = none)
    (h3 : env.copyFail = none) (hs : ThresholdSize ≤ fi.size) :
    openerCall env fi content initOpenerState
      = (⟨true, [], some content, none, 1⟩, Except.ok (Handle.fileHandle content)) := by
  simp [openerCall, materialize, openerResult, initOpenerState, h1, h2, h3, hs]

/-- First opener invocation on a small entry when the stream read
succeeds: the content is drained into the shared buffer and a fresh
reader over it is returned. -/
theorem openerCall_mem_first (env : FsEnv) (fi : FileInfo) (content : List UInt8)
    (h4 : env.readFail = none) (hlt : fi.size < ThresholdSize) :
    openerCall env fi content initOpenerState
      = (⟨true, content, none, none, 1⟩, Except.ok (Handle.memHandle content)) := by
  have hns : ¬ ThresholdSize ≤ fi.size := not_le.mpr hlt
  simp [openerCall, materialize, openerResult, initOpenerState, h4, hns]

/-- The first invocation reads the stream exactly once whenever the
materialization reaches the stream (always for small entries; for large
entries once the temp dir and temp file could be created). -/
theorem firstCall_streamReads (env : FsEnv) (fi : FileInfo) (content : List UInt8)
    (h : fi.size < ThresholdSize ∨ (env.tempDirFail = none ∧ env.tempFileFail = none)) :
    ((openerCall env fi content initOpenerState).1).streamReads = 1 := by
  have h0 : initOpenerState.onceDone = false := rfl
  rcases h with hlt | ⟨h1, h2⟩
  · have hns : ¬ ThresholdSize ≤ fi.size := not_le.mpr hlt
    cases hr : env.readFail <;>
      simp [openerCall, materialize, initOpenerState, hns, hr]
  · by_cases hs : ThresholdSize ≤ fi.size
    · cases hc : env.copyFail <;>
        simp [openerCall, materialize, initOpenerState, h1, h2, hs, hc]
    · cases hr : env.readFail <;>
        simp [openerCall, materialize, initOpenerState, hs, hr]

/-- Claim C6: the materialization policy compares the entry size against
the fixed 200 MiB threshold.  At or above the threshold the content is
copied once into the fresh temp file, every invocation returns an
independent handle on that file with the same bytes, and the release
function removes the temp directory; below the threshold the content is
drained once into the retained buffer and every invocation returns a
fresh reader over that same buffer, with exactly one underlying stream
read however many invocations are made. -/
theorem claim6_materialization_policy (env : FsEnv) (fi : FileInfo)
    (content : List UInt8) (n : Nat)
    (h1 : env.tempDirFail = none) (h2 : env.tempFileFail = none)
    (h3 : env.copyFail = none) (h4 : env.readFail = none) :
    (ThresholdSize ≤ fi.size →
      (openerCall env fi content (iterCalls env fi content n initOpenerState)).2
          = Except.ok (Handle.fileHandle content)
        ∧ (iterCalls env fi content (n + 1) initOpenerState).tempFile = some content
        ∧ (iterCalls env fi content (n + 1) initOpenerState).streamReads = 1
        ∧ (releaseCall fi (iterCalls env fi content (n + 1) initOpenerState)).tempFile = none)
    ∧ (fi.size < ThresholdSize →
      (openerCall env fi content (iterCalls env fi content n initOpenerState)).2
          = Except.ok (Handle.memHandle content)
        ∧ (iterCalls env fi content (n + 1) initOpenerState).buf = content
        ∧ (iterCalls env fi content (n + 1) initOpenerState).streamReads = 1) := by
  constructor
  · intro hs
    have hsp := openerCall_spool_first env fi content h1 h2 h3 hs
    refine ⟨?_, ?_, ?_, ?_⟩
    · rw [openerCall_iter_result, hsp]
    · rw [iterCalls_stable, hsp]
    · rw [iterCalls_stable, hsp]
    · rw [iterCalls_stable, hsp]
      simp [releaseCall, hs]
  · intro hlt
    have hm := openerCall_mem_first env fi content h4 hlt
    refine ⟨?_, ?_, ?_⟩
    · rw [openerCall_iter_result, hm]
    · rw [iterCalls_stable, hm]
    · rw [iterCalls_stable, hm]

/-- Witness for C6: a threshold-sized entry is spooled and a small entry
is buffered, each with one stream read over two invocations. -/
theorem claim6_witness :
    ThresholdSize ≤ fiBig.size
    ∧ (openerCall env0 fiBig [1, 2] (iterCalls env0 fiBig [1, 2] 1 initOpenerState)).2
        = Except.ok (Handle.fileHandle [1, 2])
    ∧ (iterCalls env0 fiBig [1, 2] 2 initOpenerState).tempFile = some [1, 2]
    ∧ (iterCalls env0 fiBig [1, 2] 2 initOpenerState).streamReads = 1
    ∧ (releaseCall fiBig (iterCalls env0 fiBig [1, 2] 2 initOpenerState)).tempFile = none :=
  ⟨by decide,
    (claim6_materialization_policy env0 fiBig [1, 2] 1 rfl rfl rfl rfl).1 (by decide)⟩

/-- String append is associative (via the underlying character lists). -/
theorem strAppendAssoc (a b c : String) : a ++ (b ++ c) = a ++ b ++ c :=
  String.ext (by simp [String.data_append])

/-- Claim C7: materialization errors are deferred and sticky.  The state
an entry is delivered with carries no error and has not touched the
stream (a callback that never invokes the factory never sees a
materialization error); if the first invocation returns an error, every
later invocation returns the same error; and each failure mode
(temp-dir creation, temp-file creation, copy, full read) surfaces as the
corresponding wrapped error from the invocation itself. -/
theorem claim7_deferred_sticky (env : FsEnv) (fi : FileInfo) (content : List UInt8) :
    (initOpenerState.errOnce = none ∧ initOpenerState.streamReads = 0)
    ∧ (∀ e, (openerCall env fi content initOpenerState).2 = Except.error e →
        ∀ n, (openerCall env fi content (iterCalls env fi content n initOpenerState)).2
          = Except.error e)
    ∧ (∀ m, ThresholdSize ≤ fi.size → env.tempDirFail = some m →
        (openerCall env fi content initOpenerState).2
          = Except.error ("failed to once do: failed to create the temp dir: " ++ m))
    ∧ (∀ m, ThresholdSize ≤ fi.size → env.tempDirFail = none →
        env.tempFileFail = some m →
        (openerCall env fi content initOpenerState).2
          = Except.error ("failed to once do: failed to create the temp file: " ++ m))
    ∧ (∀ m, ThresholdSize ≤ fi.size → env.tempDirFail = none →
        env.tempFileFail = none → env.copyFail = some m →
        (openerCall env fi content initOpenerState).2
          = Except.error ("failed to once do: failed to copy: " ++ m))
    ∧ (∀ m, fi.size < ThresholdSize → env.readFail = some m →
        (openerCall env fi content initOpenerState).2
          = Except.error ("failed to once do: unable to read the file: " ++ m)) := by
  refine ⟨⟨rfl, rfl⟩, ?_, ?_, ?_, ?_, ?_⟩
  · intro e he n
    rw [openerCall_iter_result]
    exact he
  · intro m hs hd
    simp [openerCall, materialize, openerResult, initOpenerState, hs, hd]
    rw [strAppendAssoc]
    rw [show ("failed to once do: " ++ "failed to create the temp dir: ")
      = "failed to once do: failed to create the temp dir: " by decide]
  · intro m hs hd hf
    simp [openerCall, materialize, openerResult, initOpenerState, hs, hd, hf]
    rw [strAppendAssoc]
    rw [show ("failed to once do: " ++ "failed to create the temp file: ")
      = "failed to once do: failed to create the temp file: " by decide]
  · intro m hs hd hf hc
    simp [openerCall, materialize, openerResult, initOpenerState, hs, hd, hf, hc]
    rw [strAppendAssoc]
    rw [show ("failed to once do: " ++ "failed to copy: ")
      = "failed to once do: failed to copy: " by decide]
  · intro m hlt hr
    have hns : ¬ ThresholdSize ≤ fi.size := not_le.mpr hlt
    simp [openerCall, materialize, openerResult, initOpenerState, hns, hr]
    rw [strAppendAssoc]
    rw [show ("failed to once do: " ++ "unable to read the file: ")
      = "failed to once do: unable to read the file: " by decide]

/-- Witness for C7: a failing stream read on a small entry surfaces the
same wrapped error on the first and every later invocation. -/
theorem claim7_witness :
    (openerCall ⟨none, none, none, some "eof"⟩ fiSmall [1, 2] initOpenerState).2
      = Except.error "failed to once do: unable to read the file: eof"
    ∧ (openerCall ⟨none, none, none, some "eof"⟩ fiSmall [1, 2]
        (iterCalls ⟨none, none, none, some "eof"⟩ fiSmall [1, 2] 3 initOpenerState)).2
      = Except.error "failed to once do: unable to read the file: eof" :=
  ⟨by decide,
    (claim7_deferred_sticky ⟨none, none, none, some "eof"⟩ fiSmall [1, 2]).2.1
      "failed to once do: unable to read the file: eof" (by decide) 3⟩

/-- Claim C8: materialization executes exactly once under the one-time
barrier and every caller observes the same outcome.  The sync.Once
barrier serializes concurrent first callers, so any concurrent schedule
of invocations on the shared closure state is a sequence of openerCall
steps: along every such sequence the state never changes after the first
invocation, the stream is read exactly once whenever materialization
reaches the stream (always for a small entry; for a large one once the
temp dir and file could be created), and every invocation returns
exactly the first invocation's result — the same handle bytes on
success or the same error on failure. -/
theorem claim8_once_consistent (env : FsEnv) (fi : FileInfo) (content : List UInt8) :
    (∀ n, iterCalls env fi content (n + 1) initOpenerState
        = iterCalls env fi content 1 initOpenerState)
    ∧ ((fi.size < ThresholdSize ∨ (env.tempDirFail = none ∧ env.tempFileFail = none)) →
        (iterCalls env fi content 1 initOpenerState).streamReads = 1)
    ∧ (∀ n, (openerCall env fi content (iterCalls env fi content n initOpenerState)).2
        = (openerCall env fi content initOpenerState).2) := by
  refine ⟨?_, ?_, ?_⟩
  · intro n
    rw [iterCalls_stable]
    rfl
  · intro h
    exact firstCall_streamReads env fi content h
  · intro n
    exact openerCall_iter_result env fi content n

/-- Witness for C8: five invocations on a small entry leave one stream
read and a stable result. -/
theorem claim8_witness :
    (iterCalls env0 fiSmall [7] 1 initOpenerState).streamReads = 1
    ∧ (openerCall env0 fiSmall [7] (iterCalls env0 fiSmall [7] 4 initOpenerState)).2
        = (openerCall env0 fiSmall [7] initOpenerState).2 :=
  ⟨(claim8_once_consistent env0 fiSmall [7]).2.1 (Or.inl (by decide)),
    (claim8_once_consistent env0 fiSmall [7]).2.2 4⟩

/-- Counterexample to C9 as stated: for a spooled entry (size at the
threshold) whose first invocation succeeded, calling the release function
removes the temp directory, and the next opener invocation fails to
reopen the spooled file and returns an error rather than a handle. -/
theorem claim9_release_cex :
    (openerCall env0 fiBig [1, 2] initOpenerState).2
      = Except.ok (Handle.fileHandle [1, 2])
    ∧ (openerCall env0 fiBig [1, 2]
        (releaseCall fiBig (openerCall env0 fiBig [1, 2] initOpenerState).1)).2
      = Except.error "failed to open the temp file" := by
  decide

/-- Claim C9 as amended: after a successful first materialization and a
release, an opener invocation for an in-memory entry (size below the
threshold) still returns without error a reader over the now-empty
buffer, while for a spooled entry (size at or above the threshold) the
invocation tries to reopen the removed temp file and returns a wrapped
error. -/
theorem claim9_release_amended (env : FsEnv) (fi : FileInfo) (content : List UInt8)
    (h1 : env.tempDirFail = none) (h2 : env.tempFileFail = none)
    (h3 : env.copyFail = none) (h4 : env.readFail = none) :
    (fi.size < ThresholdSize →
      (openerCall env fi content
          (releaseCall fi (openerCall env fi content initOpenerState).1)).2
        = Except.ok (Handle.memHandle []))
    ∧ (ThresholdSize ≤ fi.size →
      (openerCall env fi content
          (releaseCall fi (openerCall env fi content initOpenerState).1)).2
        = Except.error "failed to open the temp file") := by
  constructor
  · intro hlt
    have hns : ¬ ThresholdSize ≤ fi.size := not_le.mpr hlt
    rw [openerCall_mem_first env fi content h4 hlt]
    simp [releaseCall, openerCall, openerResult, hns]
  · intro hs
    rw [openerCall_spool_first env fi content h1 h2 h3 hs]
    simp [releaseCall, openerCall, openerResult, hs]

/-- Witness for C9 as amended, on a small in-memory entry. -/
theorem claim9_witness :
    fiSmall.size < ThresholdSize
    ∧ (openerCall env0 fiSmall [1, 2]
        (releaseCall fiSmall (openerCall env0 fiSmall [1, 2] initOpenerState).1)).2
      = Except.ok (Handle.memHandle []) :=
  ⟨by decide,
    (claim9_release_amended env0 fiSmall [1, 2] rfl rfl rfl rfl).1 (by decide)⟩
